import Mathlib

/-!
Verification development for the flat-file document storage engine of the
embed.rs repository (`tflat.py`, class `FlatDocumentStorage`).

The engine is shallowly embedded: the filesystem is a finite map from
absolute paths (component lists) to file contents plus a set of existing
directories; `read`, `read_doc`, `write` and `write_doc` are translated
line by line from the Python source.  Python exceptions are modelled with
`Except PyErr`; the in-place mutation that `write` performs on its
argument dictionary is modelled by returning the mutated snapshot.
-/

namespace Tflat

/-- JSON values as produced by `json.loads` / consumed by `json.dump`.
Numerals are modelled as integers, which covers every header this engine
manipulates. -/
inductive JVal where
  | null : JVal
  | bool : Bool → JVal
  | num : Int → JVal
  | str : String → JVal
  | arr : List JVal → JVal
  | obj : List (String × JVal) → JVal

/-- First-match lookup in an insertion-ordered dictionary (Python `d[k]`
on the read side / `d.get`). -/
def dictGet {κ ν : Type} [DecidableEq κ] : List (κ × ν) → κ → Option ν
  | [], _ => none
  | kv :: rest, key => if kv.1 = key then some kv.2 else dictGet rest key

/-- Python `d[k] = v`: replace in place if the key is present, else append
(insertion order preserved). -/
def dictSet {κ ν : Type} [DecidableEq κ] : List (κ × ν) → κ → ν → List (κ × ν)
  | [], key, val => [(key, val)]
  | kv :: rest, key, val =>
    if kv.1 = key then (kv.1, val) :: rest else kv :: dictSet rest key val

/-- Remove the first binding of a key (helper for `dict.pop`). -/
def dictErase {κ ν : Type} [DecidableEq κ] : List (κ × ν) → κ → List (κ × ν)
  | [], _ => []
  | kv :: rest, key => if kv.1 = key then rest else kv :: dictErase rest key

/-- Python `d.pop(k)`: the removed value and the remaining dictionary, or
`none` when the key is absent (a `KeyError` at call sites without a
default). -/
def dictPop {κ ν : Type} [DecidableEq κ] (d : List (κ × ν)) (key : κ) :
    Option (ν × List (κ × ν)) :=
  match dictGet d key with
  | none => none
  | some v => some (v, dictErase d key)

/-- The Python exceptions the engine can raise. -/
inductive PyErr where
  | valueError : String → PyErr
  | typeError : PyErr
  | keyError : PyErr
  | fileNotFoundError : PyErr
  | isADirectoryError : PyErr
  | fileExistsError : PyErr
  | ioError : PyErr
deriving DecidableEq

/-- A Python `for` loop whose body may raise: fold in the `Except` monad,
short-circuiting on the first error. -/
def foldE {σ α : Type} (f : σ → α → Except PyErr σ) : σ → List α → Except PyErr σ
  | s, [] => Except.ok s
  | s, x :: xs =>
    match f s x with
    | Except.error e => Except.error e
    | Except.ok s2 => foldE f s2 xs

/-- Split a character list at every occurrence of a separator. -/
def splitListOn (sep : Char) : List Char → List (List Char)
  | [] => [[]]
  | c :: rest =>
    let r := splitListOn sep rest
    if c = sep then [] :: r
    else
      match r with
      | [] => [[c]]
      | h :: t => (c :: h) :: t

/-- Python `str.splitlines()` on newline-separated text: like splitting on
newline, except that a trailing newline does not produce a final empty
line and the empty string has no lines. -/
def splitlinesPy (s : String) : List String :=
  if s.data = [] then []
  else
    let parts := (splitListOn (Char.ofNat 10) s.data).map (fun l => String.mk l)
    if s.data.getLast? = some (Char.ofNat 10) then parts.dropLast else parts

/-- Python `'\n'.join(lines)`. -/
def strJoinNl (lines : List String) : String :=
  String.intercalate "\n" lines

/-- Python `'/'.join(parts)`. -/
def strJoinSlash (parts : List String) : String :=
  String.intercalate "/" parts

/-- Python `key.split('/')`, i.e. how a key string with separators maps to
path components when `os.path.join(table_path, key)` hits the filesystem. -/
def splitSlash (s : String) : List String :=
  (splitListOn (Char.ofNat 47) s.data).map (fun l => String.mk l)

/-- The second component of Python `os.path.split(p)`: the text after the
last path separator. -/
def osPathSplitTail (s : String) : String :=
  match (splitListOn (Char.ofNat 47) s.data).getLast? with
  | none => ""
  | some l => String.mk l

/-- Boolean test: `n` is a prefix of `h`. -/
def listHasPre {α : Type} [DecidableEq α] : List α → List α → Bool
  | [], _ => true
  | _ :: _, [] => false
  | a :: as, b :: bs => if a = b then listHasPre as bs else false

/-- Boolean test: `n` occurs as a contiguous sublist of `h`. -/
def subListOf {α : Type} [DecidableEq α] (n : List α) : List α → Bool
  | [] => n.isEmpty
  | c :: rest => listHasPre n (c :: rest) || subListOf n rest

/-- Substring test on strings (used to talk about error-message contents). -/
def strContains (needle hay : String) : Bool :=
  subListOf needle.data hay.data

/-- Lower-case hexadecimal digit. -/
def hexDigit (n : Nat) : Char :=
  if n < 10 then Char.ofNat (48 + n) else Char.ofNat (87 + n)

/-- One character of Python `repr` of a string, given the chosen quote. -/
def pyReprChar (q : Char) (c : Char) : List Char :=
  if c = Char.ofNat 92 then [Char.ofNat 92, Char.ofNat 92]
  else if c = q then [Char.ofNat 92, q]
  else if c = Char.ofNat 10 then [Char.ofNat 92, 'n']
  else if c = Char.ofNat 13 then [Char.ofNat 92, 'r']
  else if c = Char.ofNat 9 then [Char.ofNat 92, 't']
  else if c.toNat < 32 || c.toNat = 127 then
    [Char.ofNat 92, 'x', hexDigit (c.toNat / 16), hexDigit (c.toNat % 16)]
  else [c]

/-- Python `repr` of a string (`'{!r}'.format(s)`): quote choice and
escaping as CPython does for ASCII text. -/
def pyRepr (s : String) : String :=
  let hasSq := s.data.contains (Char.ofNat 39)
  let hasDq := s.data.contains (Char.ofNat 34)
  let q := if hasSq && !hasDq then Char.ofNat 34 else Char.ofNat 39
  String.mk (q :: ((s.data.map (pyReprChar q)).flatten ++ [q]))

/-- One character of a JSON string literal as `json.dump` emits it. -/
def jsonEscapeChar (c : Char) : List Char :=
  if c = Char.ofNat 34 then [Char.ofNat 92, Char.ofNat 34]
  else if c = Char.ofNat 92 then [Char.ofNat 92, Char.ofNat 92]
  else if c = Char.ofNat 10 then [Char.ofNat 92, 'n']
  else if c = Char.ofNat 9 then [Char.ofNat 92, 't']
  else if c = Char.ofNat 13 then [Char.ofNat 92, 'r']
  else if c.toNat < 32 then
    [Char.ofNat 92, 'u', '0', '0', hexDigit (c.toNat / 16), hexDigit (c.toNat % 16)]
  else [c]

/-- A quoted, escaped JSON string literal. -/
def jsonQuote (s : String) : String :=
  String.mk (Char.ofNat 34 :: ((s.data.map jsonEscapeChar).flatten ++ [Char.ofNat 34]))

/-- Decimal rendering of an integer, as `json.dump` prints numbers. -/
def intToDec (n : Int) : String :=
  if n < 0 then "-" ++ Nat.repr n.natAbs else Nat.repr n.natAbs

mutual

/-- Serialize a JSON value the way `json.dump` does with default options:
item separator `", "`, key separator `": "`, no extra whitespace. -/
def dumpVal : JVal → String
  | JVal.null => "null"
  | JVal.bool b => if b then "true" else "false"
  | JVal.num n => intToDec n
  | JVal.str s => jsonQuote s
  | JVal.arr xs => "[" ++ String.intercalate ", " (dumpListVals xs) ++ "]"
  | JVal.obj fs => "\x7b" ++ String.intercalate ", " (dumpObjMembers fs) ++ "\x7d"

/-- Serialized elements of a JSON array. -/
def dumpListVals : List JVal → List String
  | [] => []
  | v :: rest => dumpVal v :: dumpListVals rest

/-- Serialized `"key": value` members of a JSON object. -/
def dumpObjMembers : List (String × JVal) → List String
  | [] => []
  | kv :: rest => (jsonQuote kv.1 ++ ": " ++ dumpVal kv.2) :: dumpObjMembers rest

end

/-- Drop leading JSON whitespace. -/
def skipWs : List Char → List Char
  | [] => []
  | c :: rest =>
    if c = Char.ofNat 32 || c = Char.ofNat 9 || c = Char.ofNat 10 || c = Char.ofNat 13 then
      skipWs rest
    else c :: rest

/-- Parse the remainder of a JSON string literal (after the opening
quote); returns the decoded characters and the rest of the input. -/
def parseStrChars : List Char → Option (List Char × List Char)
  | [] => none
  | c :: rest =>
    if c = Char.ofNat 34 then some ([], rest)
    else if c = Char.ofNat 92 then
      match rest with
      | [] => none
      | e :: rest2 =>
        let dec : Option Char :=
          if e = Char.ofNat 34 then some (Char.ofNat 34)
          else if e = Char.ofNat 92 then some (Char.ofNat 92)
          else if e = Char.ofNat 47 then some (Char.ofNat 47)
          else if e = 'n' then some (Char.ofNat 10)
          else if e = 't' then some (Char.ofNat 9)
          else if e = 'r' then some (Char.ofNat 13)
          else if e = 'b' then some (Char.ofNat 8)
          else if e = 'f' then some (Char.ofNat 12)
          else none
        match dec with
        | none => none
        | some d =>
          match parseStrChars rest2 with
          | none => none
          | some (cs, rem) => some (d :: cs, rem)
    else
      match parseStrChars rest with
      | none => none
      | some (cs, rem) => some (c :: cs, rem)

/-- Take a maximal run of decimal digits. -/
def takeDigits : List Char → (List Char × List Char)
  | [] => ([], [])
  | c :: rest =>
    if c.isDigit then
      let p := takeDigits rest
      (c :: p.1, p.2)
    else ([], c :: rest)

/-- Numeric value of a digit run. -/
def digitsToNat (ds : List Char) : Nat :=
  ds.foldl (fun acc c => acc * 10 + (c.toNat - 48)) 0

/-- Match an exact literal at the head of the input. -/
def stripLit : List Char → List Char → Option (List Char)
  | [], cs => some cs
  | _ :: _, [] => none
  | l :: ls, c :: cs => if l = c then stripLit ls cs else none

mutual

/-- Recursive-descent JSON parser modelling `json.loads` (integer
numerals; `\u` escapes unmodelled).  Fuel bounds nesting depth. -/
def parseVal : Nat → List Char → Option (JVal × List Char)
  | 0, _ => none
  | fuel + 1, cs =>
    match skipWs cs with
    | [] => none
    | c :: rest =>
      if c = Char.ofNat 34 then
        match parseStrChars rest with
        | some (s, rem) => some (JVal.str (String.mk s), rem)
        | none => none
      else if c = Char.ofNat 123 then parseObjBody fuel rest
      else if c = Char.ofNat 91 then parseArrBody fuel rest
      else if c = 't' then
        match stripLit ['r', 'u', 'e'] rest with
        | some rem => some (JVal.bool true, rem)
        | none => none
      else if c = 'f' then
        match stripLit ['a', 'l', 's', 'e'] rest with
        | some rem => some (JVal.bool false, rem)
        | none => none
      else if c = 'n' then
        match stripLit ['u', 'l', 'l'] rest with
        | some rem => some (JVal.null, rem)
        | none => none
      else if c = Char.ofNat 45 then
        match takeDigits rest with
        | ([], _) => none
        | (ds, rem) => some (JVal.num (-(Int.ofNat (digitsToNat ds))), rem)
      else if c.isDigit then
        match takeDigits (c :: rest) with
        | ([], _) => none
        | (ds, rem) => some (JVal.num (Int.ofNat (digitsToNat ds)), rem)
      else none

/-- Array body after the opening bracket. -/
def parseArrBody : Nat → List Char → Option (JVal × List Char)
  | 0, _ => none
  | fuel + 1, cs =>
    match skipWs cs with
    | [] => none
    | c :: rest =>
      if c = Char.ofNat 93 then some (JVal.arr [], rest)
      else
        match parseArrItems fuel cs with
        | some (vs, rem) => some (JVal.arr vs, rem)
        | none => none

/-- Comma-separated array elements up to the closing bracket. -/
def parseArrItems : Nat → List Char → Option (List JVal × List Char)
  | 0, _ => none
  | fuel + 1, cs =>
    match parseVal fuel cs with
    | none => none
    | some (v, rem) =>
      match skipWs rem with
      | [] => none
      | c :: rem2 =>
        if c = Char.ofNat 44 then
          match parseArrItems fuel rem2 with
          | some (vs, rem3) => some (v :: vs, rem3)
          | none => none
        else if c = Char.ofNat 93 then some ([v], rem2)
        else none

/-- Object body after the opening brace. -/
def parseObjBody : Nat → List Char → Option (JVal × List Char)
  | 0, _ => none
  | fuel + 1, cs =>
    match skipWs cs with
    | [] => none
    | c :: rest =>
      if c = Char.ofNat 125 then some (JVal.obj [], rest)
      else
        match parseObjItems fuel cs with
        | some (ms, rem) => some (JVal.obj ms, rem)
        | none => none

/-- Comma-separated `"key": value` members up to the closing brace. -/
def parseObjItems : Nat → List Char → Option (List (String × JVal) × List Char)
  | 0, _ => none
  | fuel + 1, cs =>
    match skipWs cs with
    | [] => none
    | c :: rest =>
      if c = Char.ofNat 34 then
        match parseStrChars rest with
        | none => none
        | some (k, rem) =>
          match skipWs rem with
          | [] => none
          | c2 :: rem2 =>
            if c2 = Char.ofNat 58 then
              match parseVal fuel rem2 with
              | none => none
              | some (v, rem3) =>
                match skipWs rem3 with
                | [] => none
                | c3 :: rem4 =>
                  if c3 = Char.ofNat 44 then
                    match parseObjItems fuel rem4 with
                    | some (ms, rem5) => some ((String.mk k, v) :: ms, rem5)
                    | none => none
                  else if c3 = Char.ofNat 125 then some ([(String.mk k, v)], rem4)
                  else none
            else none
      else none

end

/-- `json.loads`: parse a complete JSON document, requiring only
whitespace to remain. -/
def jsonLoads (s : String) : Option JVal :=
  match parseVal (s.data.length + 1) s.data with
  | some (v, rem) => if skipWs rem = [] then some v else none
  | none => none

/-- An absolute filesystem path as its list of name components.  The
engine's callers always construct the storage with `os.path.abspath`, so
every path the engine manipulates is absolute. -/
abbrev Path := List String

/-- A document field name.  `some s` is the Python string `s`; `none` is
the Python `None` object, which `doc[self.big_field]` uses as a dict key
when no big field is configured. -/
abbrev PyKey := Option String

/-- A document: an insertion-ordered mapping from field name to value. -/
abbrev Doc := List (PyKey × JVal)

/-- A table: mapping from entity id (`hash` of the primary key) to
document. -/
abbrev Table := List (Int × Doc)

/-- A snapshot: mapping from table name to table, as returned by `read`
and consumed by `write`. -/
abbrev Snapshot := List (String × Table)

/-- The constructor arguments of `FlatDocumentStorage.__init__`. -/
structure Config where
  path : Path
  pkey_field : String
  big_field : Option String
  read_only : Bool

/-- A filesystem state: the set of existing directories and a finite map
from file path to file text. -/
structure FS where
  dirs : List Path
  files : List (Path × String)

/-- `n` such that `q = p ++ [n]`, when `q` is an immediate child of `p`. -/
def childNameOf (p q : Path) : Option String :=
  if q.take p.length = p ∧ q.length = p.length + 1 then q.getLast? else none

/-- Names of the immediate subdirectories of `p`. -/
def childDirNames (fs : FS) (p : Path) : List String :=
  (fs.dirs.filterMap (childNameOf p)).dedup

/-- Names of the regular files directly inside `p`. -/
def childFileNames (fs : FS) (p : Path) : List String :=
  ((fs.files.map (fun f => f.1)).filterMap (childNameOf p)).dedup

/-- `os.listdir(p)`: all immediate children, files and directories alike. -/
def listdir (fs : FS) (p : Path) : List String :=
  (fs.dirs.filterMap (childNameOf p) ++
    (fs.files.map (fun f => f.1)).filterMap (childNameOf p)).dedup

/-- `os.path.exists(p)`. -/
def pathExists (fs : FS) (p : Path) : Bool :=
  fs.dirs.contains p || (dictGet fs.files p).isSome

/-- One level of `os.walk`: visit `p` if it is a directory, then recurse
into its subdirectories (top-down order); a non-directory yields nothing,
exactly as `os.walk` does. -/
def walkAux (fs : FS) : Nat → Path → List (Path × List String × List String)
  | 0, _ => []
  | fuel + 1, p =>
    if fs.dirs.contains p then
      (p, childDirNames fs p, childFileNames fs p) ::
        ((childDirNames fs p).map (fun d => walkAux fs fuel (p ++ [d]))).flatten
    else []

/-- Fuel bound for `walkAux`: longer than every directory path, so the
recursion never runs out before the tree does. -/
def FS.depthBound (fs : FS) : Nat :=
  fs.dirs.foldl (fun acc p => max acc p.length) 0 + 1

/-- `os.walk(p)` for a top-down walk of the directory tree under `p`. -/
def walk (fs : FS) (p : Path) : List (Path × List String × List String) :=
  walkAux fs fs.depthBound p

/-- `open(p).read()`: the text of an existing file. -/
def readFile (fs : FS) (p : Path) : Except PyErr String :=
  match dictGet fs.files p with
  | some content => Except.ok content
  | none => Except.error PyErr.ioError

/-- `os.mkdir(p)`: fails if `p` exists or its parent directory does not. -/
def mkdir (fs : FS) (p : Path) : Except PyErr FS :=
  if pathExists fs p then Except.error PyErr.fileExistsError
  else if fs.dirs.contains p.dropLast then
    Except.ok { fs with dirs := fs.dirs ++ [p] }
  else Except.error PyErr.fileNotFoundError

/-- `open(p, 'w')` followed by writing `content`: requires the parent
directory to exist and `p` not to be a directory; overwrites any
existing file at `p`. -/
def createFile (fs : FS) (p : Path) (content : String) : Except PyErr FS :=
  if fs.dirs.contains p then Except.error PyErr.isADirectoryError
  else if fs.dirs.contains p.dropLast then
    Except.ok { fs with files := dictSet fs.files p content }
  else Except.error PyErr.fileNotFoundError

/-- Deterministic stand-in for the host language's string hash used for
entity ids (`eid = hash(doc[self.pkey_field])`).  The spec notes the hash
is implementation-defined; no claim depends on its values. -/
def pyHash (s : String) : Int :=
  Int.ofNat (s.data.foldl (fun h c => (h * 31 + c.toNat) % (2 ^ 61 - 1)) 7)

/-- The states of the `read_doc` line parser (`'pre'`, `'json'`,
`'skip'`, `'body'`). -/
inductive RState where
  | pre : RState
  | json : RState
  | skip : RState
  | body : RState

/-- The `for line in inp.read().splitlines()` loop of `read_doc`,
accumulating `json_lines` and `body_lines`. -/
def rdLoop : RState → List String → List String → List String →
    Except PyErr (List String × List String)
  | _, jacc, bacc, [] => Except.ok (jacc, bacc)
  | RState.pre, jacc, bacc, line :: rest =>
    if line = "" then rdLoop RState.pre jacc bacc rest
    else if line ≠ "---" then
      Except.error (PyErr.valueError "Data file does not start with `---`")
    else rdLoop RState.json jacc bacc rest
  | RState.json, jacc, bacc, line :: rest =>
    if line = "---" then rdLoop RState.skip jacc bacc rest
    else rdLoop RState.json (jacc ++ [line]) bacc rest
  | RState.skip, jacc, bacc, line :: rest =>
    if line.trim = "" then rdLoop RState.skip jacc bacc rest
    else rdLoop RState.body jacc (bacc ++ [line]) rest
  | RState.body, jacc, bacc, line :: rest =>
    rdLoop RState.body jacc (bacc ++ [line]) rest

/-- `FlatDocumentStorage.read_doc`: split the file into header lines and
body lines, parse the header as JSON (raising a `ValueError` that carries
the repr of the raw text on failure), and report an empty body as
absent. -/
def read_doc (content : String) : Except PyErr (JVal × Option String) :=
  match rdLoop RState.pre [] [] (splitlinesPy content) with
  | Except.error e => Except.error e
  | Except.ok jb =>
    let json_raw := strJoinNl jb.1
    match jsonLoads json_raw with
    | none =>
      Except.error (PyErr.valueError ("Could not decode JSON " ++ pyRepr json_raw))
    | some header =>
      let big_field := if jb.2 = [] then none else some (strJoinNl jb.2)
      Except.ok (header, big_field)

/-- The dynamic type of the `components` value in `read`: Python builds a
list in the `rel_path == '.'` branch and a tuple otherwise. -/
inductive PySeq where
  | pylist : List String → PySeq
  | pytuple : List String → PySeq

/-- `'/'.join(components + (fn, ))`: concatenating a list with a tuple is
a `TypeError` in Python, so the `pylist` branch (a table directory whose
files sit at the top level) raises. -/
def docNameOf (comps : PySeq) (fn : String) : Except PyErr String :=
  match comps with
  | PySeq.pytuple xs => Except.ok (strJoinSlash (xs ++ [fn]))
  | PySeq.pylist _ => Except.error PyErr.typeError

/-- `components = [] if rel_path == '.' else os.path.split(rel_path)[1:]`:
`os.path.split` returns a `(head, tail)` pair, so the `[1:]` slice keeps
only the final component. -/
def componentsOf (rel_path : String) : PySeq :=
  if rel_path = "." then PySeq.pylist []
  else PySeq.pytuple [osPathSplitTail rel_path]

/-- `os.path.relpath(dir_path, tbl_path)` for a walk position under the
table directory: `'.'` at the table directory itself, else the joined
remaining components. -/
def relpathOf (dir_path tbl_path : Path) : String :=
  let rest := dir_path.drop tbl_path.length
  if rest = [] then "." else strJoinSlash rest

/-- A decoded JSON header as a Python dict (all keys are strings). -/
def docOfFields (fields : List (String × JVal)) : Doc :=
  fields.map (fun kv => ((some kv.1 : PyKey), kv.2))

/-- The body of `read`'s inner `for fn in fns` loop: derive the document
name, open and decode the file, inject the big field (if a body is
present) and the primary-key field, and store under `hash(doc_name)`.
`os.path.join(tbl_path, dir_path, fn)` resolves to `dir_path/fn` because
`dir_path` is absolute.  A non-object header makes the field assignments
raise `TypeError`, as item assignment on a non-dict does in Python. -/
def readOneDoc (cfg : Config) (fs : FS) (dir_path : Path) (comps : PySeq)
    (tbl : Table) (fn : String) : Except PyErr Table :=
  match docNameOf comps fn with
  | Except.error e => Except.error e
  | Except.ok doc_name =>
    match readFile fs (dir_path ++ [fn]) with
    | Except.error e => Except.error e
    | Except.ok content =>
      match read_doc content with
      | Except.error e => Except.error e
      | Except.ok hb =>
        match hb.1 with
        | JVal.obj fields =>
          let doc0 := docOfFields fields
          let doc1 :=
            match hb.2 with
            | none => doc0
            | some b => dictSet doc0 cfg.big_field (JVal.str b)
          let doc2 := dictSet doc1 (some cfg.pkey_field) (JVal.str doc_name)
          Except.ok (dictSet tbl (pyHash doc_name) doc2)
        | _ => Except.error PyErr.typeError

/-- One `(dir_path, dir_names, fns)` triple of the walk: compute the
table-relative components, skip directories without files, and process
each file. -/
def readTableStep (cfg : Config) (fs : FS) (tbl_path : Path) (tbl : Table)
    (trip : Path × List String × List String) : Except PyErr Table :=
  let rel_path := relpathOf trip.1 tbl_path
  let comps := componentsOf rel_path
  if trip.2.2 = [] then Except.ok tbl
  else foldE (readOneDoc cfg fs trip.1 comps) tbl trip.2.2

/-- Assemble one table by walking its directory. -/
def readTable (cfg : Config) (fs : FS) (tbl_path : Path) : Except PyErr Table :=
  foldE (readTableStep cfg fs tbl_path) [] (walk fs tbl_path)

/-- The body of `read`'s outer loop: build the table for one entry of
`os.listdir(self.path)` and record it under its name. -/
def readTablesStep (cfg : Config) (fs : FS) (tables : Snapshot)
    (table_name : String) : Except PyErr Snapshot :=
  match readTable cfg fs (cfg.path ++ [table_name]) with
  | Except.error e => Except.error e
  | Except.ok tbl => Except.ok (dictSet tables table_name tbl)

/-- `FlatDocumentStorage.read`: `None` (here `none`) when the root path
does not exist, otherwise one table per entry of the root directory. -/
def read (cfg : Config) (fs : FS) : Except PyErr (Option Snapshot) :=
  if pathExists fs cfg.path = false then Except.ok none
  else
    match foldE (readTablesStep cfg fs) [] (listdir fs cfg.path) with
    | Except.error e => Except.error e
    | Except.ok tables => Except.ok (some tables)

/-- `FlatDocumentStorage.write_doc`: the serialized header, the literal
separator, the body if present, and a trailing newline.  Writing a
non-string body raises `TypeError`, as `out.write` does. -/
def write_doc (big_field : Option JVal) (data : Doc) : Except PyErr String :=
  let hdr := "\x7b" ++
    String.intercalate ", "
      (data.map (fun kv => jsonQuote (kv.1.getD "null") ++ ": " ++ dumpVal kv.2)) ++
    "\x7d"
  match big_field with
  | none => Except.ok (hdr ++ "\n+++\n\n" ++ "\n")
  | some (JVal.str s) => Except.ok (hdr ++ "\n+++\n\n" ++ s ++ "\n")
  | some _ => Except.error PyErr.typeError

/-- `big_field = doc_data.pop(self.big_field, None) if self.big_field is
not None else None`: the popped big-field value (with a `None` default)
and the remaining document. -/
def popBig (cfg : Config) (doc : Doc) : Option JVal × Doc :=
  match cfg.big_field with
  | none => (none, doc)
  | some bf =>
    match dictPop doc (some bf) with
    | none => (none, doc)
    | some vd => (some vd.1, vd.2)

/-- The popped primary-key value used as a path: a non-string key makes
`os.path.join` raise `TypeError`. -/
def keyAsStr : JVal → Except PyErr String
  | JVal.str s => Except.ok s
  | _ => Except.error PyErr.typeError

/-- The body of `write`'s inner loop for one `(eid, doc_data)` item: pop
the primary key (raising `KeyError` when absent), pop the big field with
a `None` default when one is configured, and write the encoded document
at `os.path.join(table_path, key)`.  The accumulated table records the
destructively mutated document. -/
def writeDoc (cfg : Config) (table_path : Path) (st : FS × Table)
    (entry : Int × Doc) : Except PyErr (FS × Table) :=
  match dictPop entry.2 (some cfg.pkey_field) with
  | none => Except.error PyErr.keyError
  | some kd =>
    match keyAsStr kd.1 with
    | Except.error e => Except.error e
    | Except.ok key =>
      match write_doc (popBig cfg kd.2).1 (popBig cfg kd.2).2 with
      | Except.error e => Except.error e
      | Except.ok content =>
        match createFile st.1 (table_path ++ splitSlash key) content with
        | Except.error e => Except.error e
        | Except.ok fs2 => Except.ok (fs2, st.2 ++ [(entry.1, (popBig cfg kd.2).2)])

/-- The body of `write`'s outer loop for one `(table_name, table_data)`
item: ensure the table directory exists, then write every document. -/
def writeTable (cfg : Config) (st : FS × Snapshot) (entry : String × Table) :
    Except PyErr (FS × Snapshot) :=
  match (if pathExists st.1 (cfg.path ++ [entry.1]) then Except.ok st.1
         else mkdir st.1 (cfg.path ++ [entry.1])) with
  | Except.error e => Except.error e
  | Except.ok fs1 =>
    match foldE (writeDoc cfg (cfg.path ++ [entry.1])) (fs1, []) entry.2 with
    | Except.error e => Except.error e
    | Except.ok ft => Except.ok (ft.1, st.2 ++ [(entry.1, ft.2)])

/-- `FlatDocumentStorage.write`: a no-op under the read-only flag,
otherwise create the root directory if missing and store all tables.  The
returned snapshot is the argument snapshot as mutated in place by the
`pop` calls. -/
def write (cfg : Config) (fs : FS) (data : Snapshot) :
    Except PyErr (FS × Snapshot) :=
  if cfg.read_only then Except.ok (fs, data)
  else
    match (if pathExists fs cfg.path then Except.ok fs
           else mkdir fs cfg.path) with
    | Except.error e => Except.error e
    | Except.ok fs1 => foldE (writeTable cfg) (fs1, []) data

/-- A document after `write` has popped its reserved fields: the primary
key is removed, and the big field too when one is configured. -/
def stripDoc (cfg : Config) (doc : Doc) : Doc :=
  let d1 := dictErase doc (some cfg.pkey_field)
  match cfg.big_field with
  | none => d1
  | some bf => dictErase d1 (some bf)

/-- A table after `write` has processed it. -/
def stripTable (cfg : Config) (tbl : Table) : Table :=
  tbl.map (fun e => (e.1, stripDoc cfg e.2))

/-- A snapshot after `write` has processed it. -/
def stripSnap (cfg : Config) (data : Snapshot) : Snapshot :=
  data.map (fun e => (e.1, stripTable cfg e.2))

/-- The on-disk path `write` targets for a document of table `t`, read
off the document's primary-key field. -/
def docPathOf (cfg : Config) (t : String) (doc : Doc) : Option Path :=
  match dictGet doc (some cfg.pkey_field) with
  | some (JVal.str key) => some ((cfg.path ++ [t]) ++ splitSlash key)
  | _ => none

/-- The target paths of all documents of one table. -/
def docPathsTable (cfg : Config) (t : String) : Table → List Path
  | [] => []
  | e :: rest =>
    match docPathOf cfg t e.2 with
    | none => docPathsTable cfg t rest
    | some p => p :: docPathsTable cfg t rest

/-- The target paths of all documents of a snapshot. -/
def docPaths (cfg : Config) : Snapshot → List Path
  | [] => []
  | e :: rest => docPathsTable cfg e.1 e.2 ++ docPaths cfg rest

/-- Forget entity ids, keeping table names and documents (used to state
read results without fixing the hash function's values). -/
def snapDocs (s : Snapshot) : List (String × List Doc) :=
  s.map (fun e => (e.1, e.2.map (fun d => d.2)))

/-! ## Concrete scenarios used by the claims -/

/-- Engine configuration as the site builders construct it (absolute root
`/db`, primary key `slug`, big field `content`), with writes enabled. -/
def cfgC1 : Config :=
  { path := ["db"], pkey_field := "slug", big_field := some "content",
    read_only := false }

/-- A root with one table `t` that already contains the subdirectory `a`,
so that writing the two-component key `a/b` can succeed. -/
def fsC1 : FS :=
  { dirs := [[], ["db"], ["db", "t"], ["db", "t", "a"]], files := [] }

/-- One document under key `a/b` with a single ordinary field. -/
def snapC1 : Snapshot :=
  [("t", [(1, [((some "slug" : PyKey), JVal.str "a/b"),
               ((some "title" : PyKey), JVal.str "x")])])]

/-- The filesystem `write cfgC1 fsC1 snapC1` produces. -/
def fsC1b : FS :=
  { dirs := [[], ["db"], ["db", "t"], ["db", "t", "a"]],
    files := [(["db", "t", "a", "b"], "\x7b\"title\": \"x\"\x7d\n+++\n\n\n")] }

/-- The snapshot as mutated by that `write`. -/
def snapC1b : Snapshot :=
  [("t", [(1, [((some "title" : PyKey), JVal.str "x")])])]

/-- Configuration for read-side scenarios. -/
def cfgC3 : Config :=
  { path := ["db"], pkey_field := "slug", big_field := some "content",
    read_only := true }

/-- A flat table: the file `doc1` sits directly in table `t`, with
well-formed front-matter contents. -/
def fsC3 : FS :=
  { dirs := [[], ["db"], ["db", "t"]],
    files := [(["db", "t", "doc1"], "---\n\x7b\x7d\n---\n")] }

/-- Read-only configuration without a big field. -/
def cfgC4 : Config :=
  { path := ["db"], pkey_field := "slug", big_field := none,
    read_only := true }

/-- A document file at the table-relative path `2020/01/post` of table
`t`, i.e. what the spec says key `2020/01/post` maps to. -/
def fsC4 : FS :=
  { dirs := [[], ["db"], ["db", "t"], ["db", "t", "2020"],
             ["db", "t", "2020", "01"]],
    files := [(["db", "t", "2020", "01", "post"], "---\n\x7b\x7d\n---\n")] }

/-- Writable configuration without a big field. -/
def cfgC5 : Config :=
  { path := ["db"], pkey_field := "slug", big_field := none,
    read_only := false }

/-- A bare root directory with no tables. -/
def fsC5 : FS := { dirs := [[], ["db"]], files := [] }

/-- One document under the three-component key `2020/01/post`. -/
def snapC5 : Snapshot :=
  [("t", [(0, [((some "slug" : PyKey), JVal.str "2020/01/post")])])]

/-- Read-only configuration for the absent/empty-root scenarios. -/
def cfgC6 : Config :=
  { path := ["db"], pkey_field := "slug", big_field := none,
    read_only := true }

/-- A filesystem in which the root `/db` does not exist. -/
def fsC6a : FS := { dirs := [[]], files := [] }

/-- A filesystem in which the root `/db` exists and is empty. -/
def fsC6b : FS := { dirs := [[], ["db"]], files := [] }

/-- Writable configuration for the frame scenarios. -/
def cfgC9 : Config :=
  { path := ["db"], pkey_field := "slug", big_field := some "content",
    read_only := false }

/-- A filesystem with table `t` plus an unrelated file `/db/old` that the
snapshot does not mention. -/
def fsC9 : FS :=
  { dirs := [[], ["db"], ["db", "t"]], files := [(["db", "old"], "keep")] }

/-- A snapshot containing only the document `t/a`. -/
def snapC9 : Snapshot :=
  [("t", [(0, [((some "slug" : PyKey), JVal.str "a")])])]

/-- The filesystem `write cfgC9 fsC9 snapC9` produces: `/db/old` intact,
`/db/t/a` written. -/
def fsC9b : FS :=
  { dirs := [[], ["db"], ["db", "t"]],
    files := [(["db", "old"], "keep"),
              (["db", "t", "a"], "\x7b\x7d\n+++\n\n\n")] }

/-- The snapshot as mutated by that `write`. -/
def snapC9b : Snapshot := [("t", [(0, [])])]

/-- Writable configuration for the snapshot-mutation scenarios. -/
def cfgC10 : Config :=
  { path := ["db"], pkey_field := "slug", big_field := some "content",
    read_only := false }

/-- A root with the empty table directory `t`. -/
def fsC10 : FS := { dirs := [[], ["db"], ["db", "t"]], files := [] }

/-- A snapshot whose document carries the primary-key field and one
ordinary field. -/
def snapC10 : Snapshot :=
  [("t", [(0, [((some "slug" : PyKey), JVal.str "a"),
               ((some "title" : PyKey), JVal.str "x")])])]

/-- The filesystem `write cfgC10 fsC10 snapC10` produces. -/
def fsC10b : FS :=
  { dirs := [[], ["db"], ["db", "t"]],
    files := [(["db", "t", "a"], "\x7b\"title\": \"x\"\x7d\n+++\n\n\n")] }

/-- That snapshot as mutated by `write`: the `slug` field is gone. -/
def snapC10b : Snapshot :=
  [("t", [(0, [((some "title" : PyKey), JVal.str "x")])])]

/-- A snapshot whose document lacks the primary-key field. -/
def snapBad : Snapshot :=
  [("t", [(0, [((some "title" : PyKey), JVal.str "x")])])]

/-- A read-only engine configuration. -/
def cfgC7 : Config :=
  { path := ["db"], pkey_field := "slug", big_field := some "content",
    read_only := true }

/-- A populated filesystem for the read-only no-op scenario. -/
def fsC7 : FS :=
  { dirs := [[], ["db"], ["db", "t"]], files := [(["db", "t", "a"], "old")] }

/-- A nonempty snapshot for the read-only no-op scenario. -/
def snapC7 : Snapshot :=
  [("t", [(5, [((some "slug" : PyKey), JVal.str "a")])])]

end Tflat

namespace Tflat

/-! ## Claim theorems -/

/-- C2: the write path's encoder and the read path's decoder disagree.
`write_doc` emits compact JSON followed by the `+++` separator, but
`read_doc` implements the legacy `---` front-matter grammar and rejects
every such file with `ValueError('Data file does not start with `---`')`.
Shown for a headed document without a body and for one with a body. -/
theorem writer_format_rejected_by_reader :
    write_doc none [((some "title" : PyKey), JVal.str "x")] =
      Except.ok "\x7b\"title\": \"x\"\x7d\n+++\n\n\n" ∧
    read_doc "\x7b\"title\": \"x\"\x7d\n+++\n\n\n" =
      Except.error (PyErr.valueError "Data file does not start with `---`") ∧
    write_doc (some (JVal.str "hello")) [] = Except.ok "\x7b\x7d\n+++\n\nhello\n" ∧
    read_doc "\x7b\x7d\n+++\n\nhello\n" =
      Except.error (PyErr.valueError "Data file does not start with `---`") :=
  ⟨rfl, rfl, rfl, rfl⟩

/-- C1: the write/read round trip fails.  Writing the document
`{slug: "a/b", title: "x"}` into table `t` succeeds (producing the
`+++`-separated file), but the subsequent `read` raises `ValueError`
because `read_doc` expects the `---` front-matter grammar; no snapshot
equal to the written document is ever returned. -/
theorem roundtrip_write_read_fails :
    write cfgC1 fsC1 snapC1 = Except.ok (fsC1b, snapC1b) ∧
    read cfgC1 fsC1b =
      Except.error (PyErr.valueError "Data file does not start with `---`") :=
  ⟨rfl, rfl⟩

/-- C3: a flat table crashes `read`.  With file `doc1` directly inside
table `t`, the walk visits the table directory itself, `components` is
the Python list `[]`, and `'/'.join(components + (fn, ))` concatenates a
list with a tuple: `read` raises `TypeError` instead of returning one
entry per file. -/
theorem flat_table_read_raises_type_error :
    read cfgC3 fsC3 = Except.error PyErr.typeError :=
  rfl

/-- C4: hierarchical keys are not preserved.  A document file stored at
table-relative path `2020/01/post` (the on-disk location of key
`2020/01/post`) reads back with primary-key field `01/post`, because
`os.path.split(rel_path)[1:]` keeps only the last directory component;
`pathToKey(keyToPath(k)) = k` therefore fails for three-component keys. -/
theorem hierarchical_key_not_roundtripped :
    read cfgC4 fsC4 =
      Except.ok (some [("t", [(pyHash "01/post",
        [((some "slug" : PyKey), JVal.str "01/post")])])]) ∧
    ("01/post" : String) ≠ "2020/01/post" :=
  ⟨rfl, by decide⟩

/-- C5: `write` does not create the intermediate directories implied by a
multi-component key.  Writing key `2020/01/post` into a fresh root
creates only the root and table directories and then fails at
`open(doc_path, 'w')` with `FileNotFoundError`, because `table/2020/01`
was never created. -/
theorem write_nested_key_fails :
    write cfgC5 fsC5 snapC5 = Except.error PyErr.fileNotFoundError :=
  rfl

/-- C6: `read` distinguishes an absent root from an empty one: a
non-existent root yields `none` (the Python `None`, "no data yet"), while
an existing root directory with no entries yields an empty snapshot. -/
theorem read_absent_root_vs_empty_root (cfg : Config) (fs : FS) :
    (pathExists fs cfg.path = false → read cfg fs = Except.ok none) ∧
    (fs.dirs.contains cfg.path = true → listdir fs cfg.path = [] →
      read cfg fs = Except.ok (some [])) := by
  constructor
  · intro h
    simp [read, h]
  · intro h1 h2
    have hex : pathExists fs cfg.path = true := by
      simp only [pathExists, Bool.or_eq_true]
      left
      simpa using h1
    simp [read, hex, h2, foldE]

/-- C6 witness: on a filesystem without `/db` the engine reads `none`;
after creating an empty `/db` it reads the empty snapshot. -/
theorem read_absent_root_vs_empty_root_witness :
    read cfgC6 fsC6a = Except.ok none ∧
    read cfgC6 fsC6b = Except.ok (some []) :=
  ⟨(read_absent_root_vs_empty_root cfgC6 fsC6a).1 rfl,
   (read_absent_root_vs_empty_root cfgC6 fsC6b).2 rfl rfl⟩

/-- C7: on a read-only engine, `write` returns immediately: the
filesystem comes back unchanged (no file or directory is created,
modified or deleted) and no error is raised. -/
theorem write_read_only_is_noop (cfg : Config) (fs : FS) (data : Snapshot)
    (h : cfg.read_only = true) :
    write cfg fs data = Except.ok (fs, data) := by
  simp [write, h]

/-- C7 witness: a concrete read-only write is the identity on the
filesystem and raises nothing. -/
theorem write_read_only_is_noop_witness :
    write cfgC7 fsC7 snapC7 = Except.ok (fsC7, snapC7) :=
  write_read_only_is_noop cfgC7 fsC7 snapC7 rfl

/-- Every list is a prefix of itself. -/
lemma listHasPre_refl {α : Type} [DecidableEq α] (l : List α) :
    listHasPre l l = true := by
  induction l with
  | nil => rfl
  | cons a as ih => simp [listHasPre, ih]

/-- A list occurs inside anything that ends with it. -/
lemma subListOf_append_self {α : Type} [DecidableEq α] (n : List α) :
    ∀ pre : List α, subListOf n (pre ++ n) = true := by
  intro pre
  induction pre with
  | nil =>
    cases n with
    | nil => rfl
    | cons c rest => simp [subListOf, listHasPre_refl]
  | cons p ps ih => simp [subListOf, ih]

/-- Occurrence is stable under extending the haystack on the left. -/
lemma subListOf_append_left {α : Type} [DecidableEq α] (n h : List α)
    (hs : subListOf n h = true) :
    ∀ pre : List α, subListOf n (pre ++ h) = true := by
  intro pre
  induction pre with
  | nil => simpa using hs
  | cons p ps ih => simp [subListOf, ih]

/-- String concatenation concatenates the character data. -/
lemma strData_append (a b : String) : (a ++ b).data = a.data ++ b.data :=
  rfl

/-- A string contains any suffix of itself. -/
lemma strContains_append_self (pre s : String) :
    strContains s (pre ++ s) = true := by
  unfold strContains
  rw [strData_append]
  exact subListOf_append_self s.data pre.data

/-- Containment is stable under prepending to the haystack. -/
lemma strContains_append_left (n h pre : String)
    (hs : strContains n h = true) : strContains n (pre ++ h) = true := by
  unfold strContains at hs ⊢
  rw [strData_append]
  exact subListOf_append_left n.data h.data hs pre.data

/-- C8 (amended): when the header segment of a file fails to parse as
JSON, `read_doc` raises a `ValueError` whose message embeds the Python
`repr` of the offending header text; the message therefore contains the
literal header text exactly when the text's `repr` leaves it intact
(as it does for `{bad json`), not for every header. -/
theorem read_doc_bad_header_error :
    ∀ (content : String) (jl bl : List String),
      rdLoop RState.pre [] [] (splitlinesPy content) = Except.ok (jl, bl) →
      jsonLoads (strJoinNl jl) = none →
      read_doc content =
        Except.error (PyErr.valueError
          ("Could not decode JSON " ++ pyRepr (strJoinNl jl))) ∧
      strContains (pyRepr (strJoinNl jl))
        ("Could not decode JSON " ++ pyRepr (strJoinNl jl)) = true ∧
      (strContains (strJoinNl jl) (pyRepr (strJoinNl jl)) = true →
        strContains (strJoinNl jl)
          ("Could not decode JSON " ++ pyRepr (strJoinNl jl)) = true) := by
  intro content jl bl h1 h2
  refine ⟨?_, ?_, ?_⟩
  · unfold read_doc
    rw [h1]
    simp only [h2]
  · exact strContains_append_self "Could not decode JSON " (pyRepr (strJoinNl jl))
  · intro hlit
    exact strContains_append_left (strJoinNl jl) (pyRepr (strJoinNl jl))
      "Could not decode JSON " hlit

/-- C8 witness: decoding a file whose header segment is `{bad json`
raises the parse error, and its message does contain the literal text
`{bad json`. -/
theorem read_doc_bad_header_error_witness :
    read_doc "---\n\x7bbad json\n---\n" =
      Except.error (PyErr.valueError
        ("Could not decode JSON " ++ pyRepr (strJoinNl ["\x7bbad json"]))) ∧
    strContains (strJoinNl ["\x7bbad json"])
      ("Could not decode JSON " ++ pyRepr (strJoinNl ["\x7bbad json"])) = true :=
  ⟨(read_doc_bad_header_error "---\n\x7bbad json\n---\n" ["\x7bbad json"] []
      rfl rfl).1,
   (read_doc_bad_header_error "---\n\x7bbad json\n---\n" ["\x7bbad json"] []
      rfl rfl).2.2 (by rfl)⟩

/-- C8 counterexample: for the two-line header `a` / `b` (header text
`"a\nb"`, not valid JSON), the raised message carries the escaped form
`'a\\nb'` and does not contain the literal offending text `"a\nb"` —
so "the message contains the literal offending header text" fails as a
universal statement. -/
theorem read_doc_literal_text_counterexample :
    read_doc "---\na\nb\n---\n" =
      Except.error (PyErr.valueError "Could not decode JSON \x27a\\nb\x27") ∧
    strContains "a\nb" "Could not decode JSON \x27a\\nb\x27" = false :=
  ⟨rfl, rfl⟩

/-- Updating one key of a dictionary leaves every other key's binding
unchanged. -/
lemma dictGet_dictSet_ne {κ ν : Type} [DecidableEq κ]
    (l : List (κ × ν)) (k k2 : κ) (v : ν) (h : k2 ≠ k) :
    dictGet (dictSet l k v) k2 = dictGet l k2 := by
  induction l with
  | nil =>
    simp [dictSet, dictGet, Ne.symm h]
  | cons kv rest ih =>
    simp only [dictSet]
    split_ifs with hkv
    · simp [dictGet, hkv, Ne.symm h]
    · simp only [dictGet]
      split_ifs with h2
      · rfl
      · exact ih

/-- `os.mkdir` touches no file. -/
lemma mkdir_files {fs fs2 : FS} {p : Path} (h : mkdir fs p = Except.ok fs2) :
    fs2.files = fs.files := by
  unfold mkdir at h
  split at h
  · cases h
  · split at h
    · cases h
      rfl
    · cases h

/-- A successful `open(p, 'w')` changes only the file at `p`. -/
lemma createFile_frame {fs fs2 : FS} {p : Path} {c : String}
    (h : createFile fs p c = Except.ok fs2) (q : Path) (hq : q ≠ p) :
    dictGet fs2.files q = dictGet fs.files q := by
  unfold createFile at h
  split at h
  · cases h
  · split at h
    · cases h
      exact dictGet_dictSet_ne fs.files p q c hq
    · cases h

/-- A successful `dict.pop` found the value under the key and erased it. -/
lemma dictPop_some {κ ν : Type} [DecidableEq κ]
    {d : List (κ × ν)} {k : κ} {kd : ν × List (κ × ν)}
    (h : dictPop d k = some kd) :
    dictGet d k = some kd.1 ∧ kd.2 = dictErase d k := by
  unfold dictPop at h
  split at h
  · cases h
  · rename_i v2 heq
    cases h
    exact ⟨heq, rfl⟩

/-- A key that survives `keyAsStr` was a JSON string. -/
lemma keyAsStr_ok {v : JVal} {s : String} (h : keyAsStr v = Except.ok s) :
    v = JVal.str s := by
  cases v with
  | str t =>
    cases h
    rfl
  | null => cases h
  | bool b => cases h
  | num n => cases h
  | arr xs => cases h
  | obj fs => cases h

/-- Writing one document only touches the file at the path its
primary-key field names. -/
lemma writeDoc_frame {cfg : Config} {table_path : Path} {st st2 : FS × Table}
    {entry : Int × Doc} (h : writeDoc cfg table_path st entry = Except.ok st2)
    (q : Path)
    (hq : ∀ key, dictGet entry.2 (some cfg.pkey_field) = some (JVal.str key) →
      q ≠ table_path ++ splitSlash key) :
    dictGet st2.1.files q = dictGet st.1.files q := by
  unfold writeDoc at h
  split at h
  · cases h
  · rename_i kd hpop
    split at h
    · cases h
    · rename_i key hks
      split at h
      · cases h
      · rename_i content hwd
        split at h
        · cases h
        · rename_i fs2c hcf
          cases h
          have hget := (dictPop_some hpop).1
          rw [keyAsStr_ok hks] at hget
          exact createFile_frame hcf q (hq key hget)

/-- Folding `writeDoc` over a table only touches the files its documents'
primary keys name. -/
lemma foldE_writeDoc_frame {cfg : Config} {table_path : Path} :
    ∀ (docs : Table) (st st2 : FS × Table),
      foldE (writeDoc cfg table_path) st docs = Except.ok st2 →
      ∀ q : Path,
        (∀ eid doc, (eid, doc) ∈ docs →
          ∀ key, dictGet doc (some cfg.pkey_field) = some (JVal.str key) →
            q ≠ table_path ++ splitSlash key) →
        dictGet st2.1.files q = dictGet st.1.files q := by
  intro docs
  induction docs with
  | nil =>
    intro st st2 h q _
    cases h
    rfl
  | cons d rest ih =>
    intro st st2 h q hq
    unfold foldE at h
    split at h
    · cases h
    · rename_i st1 hd
      have h1 : dictGet st1.1.files q = dictGet st.1.files q :=
        writeDoc_frame hd q (fun key hk => hq d.1 d.2 (List.mem_cons_self d rest) key hk)
      have h2 := ih st1 st2 h q
        (fun eid doc hm key hk => hq eid doc (List.mem_cons_of_mem d hm) key hk)
      rw [h2, h1]

/-- Writing one table only touches the files its documents name. -/
lemma writeTable_frame {cfg : Config} {st st2 : FS × Snapshot}
    {entry : String × Table}
    (h : writeTable cfg st entry = Except.ok st2) (q : Path)
    (hq : ∀ eid doc, (eid, doc) ∈ entry.2 →
      ∀ key, dictGet doc (some cfg.pkey_field) = some (JVal.str key) →
        q ≠ (cfg.path ++ [entry.1]) ++ splitSlash key) :
    dictGet st2.1.files q = dictGet st.1.files q := by
  unfold writeTable at h
  split at h
  · cases h
  · rename_i fs1 hfs1
    split at h
    · cases h
    · rename_i ft hfold
      cases h
      have hmk : fs1.files = st.1.files := by
        split at hfs1
        · cases hfs1
          rfl
        · exact mkdir_files hfs1
      have hfold2 := foldE_writeDoc_frame entry.2 (fs1, []) ft hfold q hq
      simp only at hfold2
      rw [hfold2, hmk]

/-- Folding `writeTable` over a snapshot only touches the files its
documents name. -/
lemma foldE_writeTable_frame {cfg : Config} :
    ∀ (tables : Snapshot) (st st2 : FS × Snapshot),
      foldE (writeTable cfg) st tables = Except.ok st2 →
      ∀ q : Path,
        (∀ t tbl, (t, tbl) ∈ tables → ∀ eid doc, (eid, doc) ∈ tbl →
          ∀ key, dictGet doc (some cfg.pkey_field) = some (JVal.str key) →
            q ≠ (cfg.path ++ [t]) ++ splitSlash key) →
        dictGet st2.1.files q = dictGet st.1.files q := by
  intro tables
  induction tables with
  | nil =>
    intro st st2 h q _
    cases h
    rfl
  | cons e rest ih =>
    intro st st2 h q hq
    unfold foldE at h
    split at h
    · cases h
    · rename_i st1 he
      have h1 : dictGet st1.1.files q = dictGet st.1.files q :=
        writeTable_frame he q
          (fun eid doc hm key hk =>
            hq e.1 e.2 (List.mem_cons_self e rest) eid doc hm key hk)
      have h2 := ih st1 st2 h q
        (fun t tbl hm eid doc hm2 key hk =>
          hq t tbl (List.mem_cons_of_mem e hm) eid doc hm2 key hk)
      rw [h2, h1]

/-- A document's target path is among `docPathsTable`. -/
lemma mem_docPathsTable {cfg : Config} {t : String} :
    ∀ (tbl : Table) (eid : Int) (doc : Doc) (p : Path),
      (eid, doc) ∈ tbl → docPathOf cfg t doc = some p →
      p ∈ docPathsTable cfg t tbl := by
  intro tbl
  induction tbl with
  | nil =>
    intro eid doc p hm
    cases hm
  | cons e rest ih =>
    intro eid doc p hm hp
    cases hm with
    | head =>
      unfold docPathsTable
      rw [hp]
      exact List.mem_cons_self p _
    | tail _ hm2 =>
      unfold docPathsTable
      split
      · exact ih eid doc p hm2 hp
      · exact List.mem_cons_of_mem _ (ih eid doc p hm2 hp)

/-- A document's target path is among `docPaths`. -/
lemma mem_docPaths {cfg : Config} :
    ∀ (data : Snapshot) (t : String) (tbl : Table) (eid : Int) (doc : Doc)
      (p : Path),
      (t, tbl) ∈ data → (eid, doc) ∈ tbl → docPathOf cfg t doc = some p →
      p ∈ docPaths cfg data := by
  intro data
  induction data with
  | nil =>
    intro t tbl eid doc p hm
    cases hm
  | cons e rest ih =>
    intro t tbl eid doc p hm hm2 hp
    cases hm with
    | head =>
      unfold docPaths
      exact List.mem_append_left _ (mem_docPathsTable tbl eid doc p hm2 hp)
    | tail _ hm3 =>
      unfold docPaths
      exact List.mem_append_right _ (ih t tbl eid doc p hm3 hm2 hp)

/-- C9: `write` never deletes or modifies a file it was not asked to
write.  Every path not among the snapshot's document target paths has the
same contents (or the same absence) after a successful `write` as
before; in particular documents and tables on disk but absent from the
snapshot are left untouched. -/
theorem write_preserves_unlisted_files (cfg : Config) (fs : FS)
    (data : Snapshot) (fs2 : FS) (data2 : Snapshot)
    (h : write cfg fs data = Except.ok (fs2, data2)) (q : Path)
    (hq : q ∉ docPaths cfg data) :
    dictGet fs2.files q = dictGet fs.files q := by
  unfold write at h
  split at h
  · cases h
    rfl
  · split at h
    · cases h
    · rename_i fs1 hfs1
      have hmk : fs1.files = fs.files := by
        split at hfs1
        · cases hfs1
          rfl
        · exact mkdir_files hfs1
      have hfold := foldE_writeTable_frame data (fs1, []) (fs2, data2) h q ?_
      · simp only at hfold
        rw [hfold, hmk]
      · intro t tbl hm eid doc hm2 key hk heq
        apply hq
        have hp : docPathOf cfg t doc = some ((cfg.path ++ [t]) ++ splitSlash key) := by
          unfold docPathOf
          rw [hk]
        rw [heq]
        exact mem_docPaths data t tbl eid doc _ hm hm2 hp

/-- C9 witness: writing a snapshot containing only `t/a` leaves the
unrelated pre-existing file `/db/old` exactly as it was. -/
theorem write_preserves_unlisted_files_witness :
    dictGet fsC9b.files ["db", "old"] = dictGet fsC9.files ["db", "old"] :=
  write_preserves_unlisted_files cfgC9 fsC9 snapC9 fsC9b snapC9b rfl
    ["db", "old"] (by decide)

/-- A failed `dict.pop` means the key was absent. -/
lemma dictPop_none {κ ν : Type} [DecidableEq κ]
    {d : List (κ × ν)} {k : κ} (h : dictPop d k = none) :
    dictGet d k = none := by
  unfold dictPop at h
  split at h
  · assumption
  · cases h

/-- Erasing an absent key is the identity. -/
lemma dictErase_of_get_none {κ ν : Type} [DecidableEq κ]
    {d : List (κ × ν)} {k : κ} (h : dictGet d k = none) :
    dictErase d k = d := by
  induction d with
  | nil => rfl
  | cons kv rest ih =>
    unfold dictGet at h
    unfold dictErase
    split_ifs with hkv
    · rw [if_pos hkv] at h
      cases h
    · rw [if_neg hkv] at h
      rw [ih h]

/-- What `popBig` leaves of a document: the big field erased when one is
configured and present, the document unchanged otherwise. -/
lemma popBig_snd (cfg : Config) (d : Doc) :
    (popBig cfg d).2 =
      (match cfg.big_field with
       | none => d
       | some bf => dictErase d (some bf)) := by
  cases hbf : cfg.big_field with
  | none => simp [popBig, hbf]
  | some bf =>
    cases hp : dictPop d (some bf) with
    | none =>
      simp [popBig, hbf, hp, dictErase_of_get_none (dictPop_none hp)]
    | some vd =>
      simp [popBig, hbf, hp, (dictPop_some hp).2]

/-- The table entry `writeDoc` accumulates is the document with its
reserved fields popped. -/
lemma writeDoc_snap {cfg : Config} {table_path : Path} {st st2 : FS × Table}
    {entry : Int × Doc} (h : writeDoc cfg table_path st entry = Except.ok st2) :
    st2.2 = st.2 ++ [(entry.1, stripDoc cfg entry.2)] := by
  unfold writeDoc at h
  split at h
  · cases h
  · rename_i kd hpop
    split at h
    · cases h
    · rename_i key hks
      split at h
      · cases h
      · rename_i content hwd
        split at h
        · cases h
        · rename_i fs2c hcf
          cases h
          have hkd2 : kd.2 = dictErase entry.2 (some cfg.pkey_field) :=
            (dictPop_some hpop).2
          simp only
          rw [hkd2, popBig_snd]
          unfold stripDoc
          rfl

/-- Folding `writeDoc` over a table appends exactly the stripped
documents. -/
lemma foldE_writeDoc_snap {cfg : Config} {table_path : Path} :
    ∀ (docs : Table) (st st2 : FS × Table),
      foldE (writeDoc cfg table_path) st docs = Except.ok st2 →
      st2.2 = st.2 ++ stripTable cfg docs := by
  intro docs
  induction docs with
  | nil =>
    intro st st2 h
    cases h
    simp [stripTable]
  | cons d rest ih =>
    intro st st2 h
    unfold foldE at h
    split at h
    · cases h
    · rename_i st1 hd
      have h1 := writeDoc_snap hd
      have h2 := ih st1 st2 h
      rw [h2, h1]
      simp [stripTable, List.append_assoc]

/-- The snapshot entry `writeTable` accumulates is the stripped table. -/
lemma writeTable_snap {cfg : Config} {st st2 : FS × Snapshot}
    {entry : String × Table}
    (h : writeTable cfg st entry = Except.ok st2) :
    st2.2 = st.2 ++ [(entry.1, stripTable cfg entry.2)] := by
  unfold writeTable at h
  split at h
  · cases h
  · rename_i fs1 hfs1
    split at h
    · cases h
    · rename_i ft hfold
      cases h
      have h1 := foldE_writeDoc_snap entry.2 (fs1, []) ft hfold
      simp only at h1
      simp only
      rw [h1]
      simp

/-- Folding `writeTable` over a snapshot appends exactly the stripped
tables. -/
lemma foldE_writeTable_snap {cfg : Config} :
    ∀ (tables : Snapshot) (st st2 : FS × Snapshot),
      foldE (writeTable cfg) st tables = Except.ok st2 →
      st2.2 = st.2 ++ stripSnap cfg tables := by
  intro tables
  induction tables with
  | nil =>
    intro st st2 h
    cases h
    simp [stripSnap]
  | cons e rest ih =>
    intro st st2 h
    unfold foldE at h
    split at h
    · cases h
    · rename_i st1 he
      have h1 := writeTable_snap he
      have h2 := ih st1 st2 h
      rw [h2, h1]
      simp [stripSnap, List.append_assoc]

/-- Erasing a key never lengthens a dictionary. -/
lemma dictErase_length_le {κ ν : Type} [DecidableEq κ]
    (d : List (κ × ν)) (k : κ) : (dictErase d k).length ≤ d.length := by
  induction d with
  | nil => simp [dictErase]
  | cons kv rest ih =>
    unfold dictErase
    split_ifs with hkv
    · exact Nat.le_succ _
    · simpa using ih

/-- Erasing a present key strictly shortens a dictionary. -/
lemma dictErase_length_lt {κ ν : Type} [DecidableEq κ]
    {d : List (κ × ν)} {k : κ} {v : ν} (h : dictGet d k = some v) :
    (dictErase d k).length < d.length := by
  induction d with
  | nil => cases h
  | cons kv rest ih =>
    unfold dictGet at h
    unfold dictErase
    split_ifs with hkv
    · exact Nat.lt_succ_self _
    · rw [if_neg hkv] at h
      simpa using ih h

/-- Stripping a document that does carry its primary key makes it
strictly shorter (so in particular different). -/
lemma stripDoc_length_lt {cfg : Config} {doc : Doc}
    (h : (dictGet doc (some cfg.pkey_field)).isSome = true) :
    (stripDoc cfg doc).length < doc.length := by
  obtain ⟨v, hv⟩ := Option.isSome_iff_exists.mp h
  unfold stripDoc
  cases cfg.big_field with
  | none =>
    simpa using dictErase_length_lt hv
  | some bf =>
    simp only
    exact Nat.lt_of_le_of_lt
      (dictErase_length_le (dictErase doc (some cfg.pkey_field)) (some bf))
      (dictErase_length_lt hv)

/-- A map that returns the list unchanged fixes every element. -/
lemma map_fixes_of_eq_self {α : Type} (f : α → α) :
    ∀ l : List α, l.map f = l → ∀ x ∈ l, f x = x := by
  intro l
  induction l with
  | nil =>
    intro _ x hx
    cases hx
  | cons a rest ih =>
    intro h x hx
    rw [List.map_cons, List.cons_eq_cons] at h
    cases hx with
    | head => exact h.1
    | tail _ hx2 => exact ih h.2 x hx2

/-- C10: on a writable engine, `write` destructively mutates the
snapshot it is given.  On success the resulting snapshot is exactly the
input with every document's primary-key field popped (and the big field,
when one is configured); hence a snapshot containing any document that
carried the primary-key field no longer equals its pre-call value.  A
document lacking the primary-key field makes `write` raise `KeyError`
(shown where that document is processed first, with an existing root). -/
theorem write_mutates_snapshot (cfg : Config) (fs : FS) (data : Snapshot)
    (h : cfg.read_only = false) :
    (∀ fs2 data2, write cfg fs data = Except.ok (fs2, data2) →
      data2 = stripSnap cfg data) ∧
    (∀ fs2 data2, write cfg fs data = Except.ok (fs2, data2) →
      ∀ t tbl eid doc, (t, tbl) ∈ data → (eid, doc) ∈ tbl →
        (dictGet doc (some cfg.pkey_field)).isSome = true →
        data2 ≠ data) ∧
    (∀ t eid doc tr sr, data = (t, (eid, doc) :: tr) :: sr →
      fs.dirs.contains cfg.path = true →
      dictGet doc (some cfg.pkey_field) = none →
      write cfg fs data = Except.error PyErr.keyError) := by
  have hpart1 : ∀ fs2 data2, write cfg fs data = Except.ok (fs2, data2) →
      data2 = stripSnap cfg data := by
    intro fs2 data2 hw
    unfold write at hw
    rw [h] at hw
    simp only [Bool.false_eq_true, if_false] at hw
    split at hw
    · cases hw
    · rename_i fs1 hfs1
      have := foldE_writeTable_snap data (fs1, []) (fs2, data2) hw
      simpa using this
  refine ⟨hpart1, ?_, ?_⟩
  · intro fs2 data2 hw t tbl eid doc hmt hmd hsome heq
    have hstrip := hpart1 fs2 data2 hw
    rw [heq] at hstrip
    have htbl : (t, stripTable cfg tbl) = (t, tbl) :=
      map_fixes_of_eq_self _ data hstrip.symm (t, tbl) hmt
    have hdoc : (eid, stripDoc cfg doc) = (eid, doc) :=
      map_fixes_of_eq_self _ tbl (congrArg Prod.snd htbl) (eid, doc) hmd
    have hd2 : stripDoc cfg doc = doc := congrArg Prod.snd hdoc
    have hlen : (stripDoc cfg doc).length < doc.length := stripDoc_length_lt hsome
    rw [hd2] at hlen
    exact Nat.lt_irrefl _ hlen
  · intro t eid doc tr sr hdata hroot hget
    subst hdata
    have hex : pathExists fs cfg.path = true := by
      simp only [pathExists, Bool.or_eq_true]
      left
      simpa using hroot
    unfold write
    rw [h]
    simp only [Bool.false_eq_true, if_false, hex, if_true]
    have hkey : ∀ fsx : FS,
        foldE (writeDoc cfg (cfg.path ++ [t])) (fsx, ([] : Table))
          ((eid, doc) :: tr) = Except.error PyErr.keyError := by
      intro fsx
      unfold foldE writeDoc dictPop
      rw [hget]
    cases hpe : pathExists fs (cfg.path ++ [t]) with
    | true =>
      unfold foldE writeTable
      rw [hpe]
      simp only [if_true]
      rw [hkey fs]
    | false =>
      unfold foldE writeTable
      rw [hpe]
      simp only [if_false]
      unfold mkdir
      rw [hpe]
      simp only [Bool.false_eq_true, if_false]
      have hdrop : (cfg.path ++ [t]).dropLast = cfg.path := by simp
      rw [hdrop, hroot]
      simp only [if_true]
      rw [hkey _]

/-- C10 witness: a concrete write pops `slug` and `content` from the
caller's document (leaving only `title`), so the snapshot no longer
equals its pre-call value; and a document without `slug` raises
`KeyError`. -/
theorem write_mutates_snapshot_witness :
    snapC10b = stripSnap cfgC10 snapC10 ∧ snapC10b ≠ snapC10 ∧
    write cfgC10 fsC10 snapBad = Except.error PyErr.keyError :=
  ⟨(write_mutates_snapshot cfgC10 fsC10 snapC10 rfl).1 fsC10b snapC10b rfl,
   (write_mutates_snapshot cfgC10 fsC10 snapC10 rfl).2.1 fsC10b snapC10b rfl
     "t" [(0, [((some "slug" : PyKey), JVal.str "a"),
               ((some "title" : PyKey), JVal.str "x")])]
     0 [((some "slug" : PyKey), JVal.str "a"),
        ((some "title" : PyKey), JVal.str "x")]
     (List.Mem.head _) (List.Mem.head _) rfl,
   (write_mutates_snapshot cfgC10 fsC10 snapBad rfl).2.2
     "t" 0 [((some "title" : PyKey), JVal.str "x")] [] [] rfl rfl rfl⟩

end Tflat

